import Mathlib

/-!
# Verification of the Telegram group-automation backend

Shallow embedding of the harvesting-and-invitation pipeline implemented in
`src/backend/server.py` (the body of `run_automation_task` and its helper
closures: `_append`, `load_set`, `save_set`, `ledger_add`, `ledger_seen`,
`retry_func`, `scrape_groups`, `add_from_file`, `add_one`), together with
theorems settling the specification claims about it.

Files are modelled as lists of lines (newline-stripped); the remote
protocol client (Telethon) is an external collaborator and is modelled as
an oracle giving the outcome of each remote operation, with a trace of the
remote calls that were made.  Durations are rationals.
-/

set_option autoImplicit false

namespace TgAuto

/-- Python `str.strip()`: remove leading and trailing whitespace. -/
def pyStrip (s : String) : String :=
  ⟨((s.data.dropWhile Char.isWhitespace).reverse.dropWhile Char.isWhitespace).reverse⟩

/-- `load_set` from the source: read a file as a set of stripped, non-empty
lines.  The file is a list of lines; the result is the (deduplicated) list
of members, standing for the Python `set`. -/
def load_set (file : List String) : List String :=
  ((file.map pyStrip).filter (fun x => x ≠ "")).dedup

/-- The ledger CSV header line written by `_append` on first write. -/
def ledgerHeader : String := "username,destino,timestamp"

/-- The record line `f"{username},{destino},{ts}"` written by `ledger_add`. -/
def mkLine (username destino ts : String) : String :=
  username ++ "," ++ destino ++ "," ++ ts

/-- `ledger_add` from the source: `_append(LEDGER, line, header=...)` writes
the header first when the file does not yet exist, then the record. -/
def ledger_add (ledger : List String) (username destino ts : String) : List String :=
  (if ledger.isEmpty then [ledgerHeader] else ledger) ++ [mkLine username destino ts]

/-- `line.startswith("username,")`: the header-skip test in `ledger_seen`. -/
def startsWithHeader (line : String) : Bool :=
  "username,".data.isPrefixOf line.data

/-- `line.split(",", 1)[0]`: everything before the first comma. -/
def firstField (line : String) : String :=
  ⟨line.data.takeWhile (fun c => c != ',')⟩

/-- `ledger_seen` from the source: scan the ledger file, skip lines that
start with `"username,"`, and report whether some remaining line has its
first comma-separated field equal to `username`.  The destination and
timestamp fields are never inspected. -/
def ledger_seen (ledger : List String) (username : String) : Bool :=
  ledger.any (fun line => !startsWithHeader line && (firstField line == username))

/-- Outcome of the retry-wrapped participant check
(`GetParticipantRequest`): already a member, `UserNotParticipantError`, or
some other exception carrying a message. -/
inductive PartRes where
  | isMember
  | notMember
  | failed (e : String)
deriving DecidableEq, Repr

/-- Outcome of the retry-wrapped `InviteToChannelRequest`: success,
`UserPrivacyRestrictedError`, or some other exception. -/
inductive InvRes where
  | ok
  | privacy
  | failed (e : String)
deriving DecidableEq, Repr

/-- A remote protocol call made by the invitation engine, for the call
trace: resolving the destination group, resolving a candidate username,
checking membership of a candidate, or inviting a candidate. -/
inductive RCall where
  | resolveDest
  | resolveUser (u : String)
  | partCheck (u : String)
  | invite (u : String)
deriving DecidableEq, Repr

/-- The username a remote call is about (`none` for the destination
resolution). -/
def callUser : RCall → Option String
  | .resolveDest => none
  | .resolveUser u => some u
  | .partCheck u => some u
  | .invite u => some u

/-- `true` when no call of the trace is about username `u`. -/
def callsClean (u : String) (calls : List RCall) : Bool :=
  calls.all (fun c => callUser c != some u)

/-- Oracle for the external protocol client, giving each retry-wrapped
remote operation's outcome, plus the run's destination and current
timestamp. -/
structure Env where
  destRetry : Except String Unit
  resolve : String → Except String Unit
  check : String → PartRes
  invite : String → InvRes
  dest : String
  now : String

/-- Mutable state threaded through `add_one`: the checkpoint file, the
ledger file, the `log` CSV entries `(acao, alvo, detalhe)`, and the trace
of remote calls made. -/
structure St where
  cp : List String
  ledger : List String
  logs : List (String × String × String)
  calls : List RCall
deriving DecidableEq, Repr

/-- `add_one` from the source, for one candidate username:
1. if `ledger_seen` → append to checkpoint, return 0 (no remote call);
2. resolve the username, then check participation; any error of either
   (other than `UserNotParticipantError`) is caught by the shared outer
   handler: log `resolver_fail`, return 0, no checkpoint write;
3. a positive participant check → log `ja_no_grupo`, checkpoint, return 0;
4. otherwise invite: success → ledger + checkpoint + return 1;
   `UserPrivacyRestrictedError` → log `privacidade`, checkpoint, return 0;
   other error → log `erro`, return 0, no checkpoint write. -/
def add_one (env : Env) (simulate : Bool) (st : St) (u : String) : Nat × St :=
  if ledger_seen st.ledger u then
    (0, { st with cp := st.cp ++ [u] })
  else
    let st1 := { st with calls := st.calls ++ [RCall.resolveUser u] }
    match env.resolve u with
    | .error e => (0, { st1 with logs := st1.logs ++ [("resolver_fail", u, e)] })
    | .ok _ =>
      let st2 := { st1 with calls := st1.calls ++ [RCall.partCheck u] }
      match env.check u with
      | .isMember =>
          (0, { st2 with logs := st2.logs ++ [("ja_no_grupo", u, "")],
                         cp := st2.cp ++ [u] })
      | .failed e => (0, { st2 with logs := st2.logs ++ [("resolver_fail", u, e)] })
      | .notMember =>
        if simulate then (1, { st2 with cp := st2.cp ++ [u] })
        else
          let st3 := { st2 with calls := st2.calls ++ [RCall.invite u] }
          match env.invite u with
          | .ok =>
              (1, { st3 with ledger := ledger_add st3.ledger u env.dest env.now,
                             logs := st3.logs ++ [("adicionado", u, "")],
                             cp := st3.cp ++ [u] })
          | .privacy =>
              (0, { st3 with logs := st3.logs ++ [("privacidade", u, "")],
                             cp := st3.cp ++ [u] })
          | .failed e => (0, { st3 with logs := st3.logs ++ [("erro", u, e)] })

/-- Result of the `add_from_file` loop: the returned counters, the list of
candidates for which `add_one` was invoked, whether the stop flag was
observed (the `break`), and the final file/trace state. -/
structure RunRes where
  added : Nat
  errs : Nat
  attempted : List String
  stoppedEarly : Bool
  st : St
deriving DecidableEq, Repr

/-- The sequential loop of `add_from_file` (`batch_size = 1`): before each
item the job status is polled (`stopF i` is `true` when the registry says
`"stopped"` at iteration `i`); then `add_one` runs and a result of `1`
increments `total_ok` while any other result increments `total_errors`. -/
def add_loop (env : Env) (simulate : Bool) (stopF : Nat → Bool) :
    List String → Nat → Nat → Nat → St → RunRes
  | [], _i, ok, errs, st => ⟨ok, errs, [], false, st⟩
  | u :: rest, i, ok, errs, st =>
    if stopF i then ⟨ok, errs, [], true, st⟩
    else
      let p := add_one env simulate st u
      let ok' := if p.1 = 1 then ok + 1 else ok
      let errs' := if p.1 = 1 then errs else errs + 1
      let res := add_loop env simulate stopF rest (i + 1) ok' errs' p.2
      { res with attempted := u :: res.attempted }

/-- `pend[:max_members]`, applied only when a cap was supplied. -/
def truncTo (maxm : Option Nat) (l : List String) : List String :=
  match maxm with
  | some k => l.take k
  | none => l

/-- `add_from_file` from the source: resolve the destination through the
retry wrapper (an unrecovered error propagates to the caller), load the
candidate set and checkpoint, compute `pend` as the candidates not in the
checkpoint truncated to the cap, return `(0, 0)` at once when `pend` is
empty, and otherwise drain `pend` sequentially. -/
def add_from_file (env : Env) (simulate : Bool) (stopF : Nat → Bool) (maxm : Option Nat)
    (alvoFile cpFile ledgerFile : List String) : Except String RunRes :=
  match env.destRetry with
  | .error e => .error e
  | .ok _ =>
    let st0 : St := ⟨cpFile, ledgerFile, [], [RCall.resolveDest]⟩
    let alvo := load_set alvoFile
    let cp := load_set cpFile
    let pend := truncTo maxm (alvo.filter (fun u => !cp.contains u))
    if pend.isEmpty then .ok ⟨0, 0, [], false, st0⟩
    else .ok (add_loop env simulate stopF pend 0 0 0 st0)

/-- Extract the result of a run whose destination resolution succeeded. -/
def getRun : Except String RunRes → RunRes
  | .ok r => r
  | .error _ => ⟨0, 0, [], false, ⟨[], [], [], []⟩⟩

/-! ## The retry wrapper `retry_func` -/

/-- What one attempt of the wrapped operation does: return a value, raise
`FloodWaitError` with a suggested wait of `w` seconds, or raise some other
exception. -/
inductive AttemptResult (α : Type) where
  | ok (v : α)
  | flood (w : ℚ)
  | err (e : String)

/-- How a call of `retry_func` ends: with the operation's value, with the
last exception re-raised, or by falling off the end of the `for` loop and
returning Python's implicit `None`. -/
inductive RetryOutcome (α : Type) where
  | ok (v : α)
  | raised (e : String)
  | noneReturn
deriving DecidableEq, Repr

/-- Observable behaviour of one `retry_func` call: its outcome, the sleeps
performed between attempts (in seconds), and how many times the wrapped
operation was invoked. -/
structure RetryTrace (α : Type) where
  outcome : RetryOutcome α
  sleeps : List ℚ
  calls : Nat
deriving DecidableEq, Repr

/-- The sleep after a `FloodWaitError` on attempt `a`:
`min(e.seconds * (1.5 ** attempt), 3600) + random.randint(5, 15)`, with the
drawn jitter `j`. -/
def floodSleep (w : ℚ) (a : Nat) (j : ℚ) : ℚ := min (w * (3/2) ^ a) 3600 + j

/-- The sleep after any other exception on attempt `a`:
`1.5 ** attempt + random.random() * 3`, with the drawn jitter `j`. -/
def errSleep (a : Nat) (j : ℚ) : ℚ := (3/2) ^ a + j

/-- The `for attempt in range(max_retries)` loop of `retry_func`.  `behav a`
is what the wrapped operation does on attempt `a`; `fj`/`ej` are the drawn
flood/error jitters per attempt; `fuel` is the number of loop iterations
remaining (`maxr - attempt`).  A non-flood exception on the last attempt
(`attempt == max_retries - 1`) is re-raised without sleeping; a flood wait
always sleeps, and when the loop is exhausted the function returns `None`. -/
def retry_go {α : Type} (behav : Nat → AttemptResult α) (fj ej : Nat → ℚ) (maxr : Nat) :
    Nat → Nat → RetryTrace α
  | _a, 0 => ⟨.noneReturn, [], 0⟩
  | a, fuel + 1 =>
    match behav a with
    | .ok v => ⟨.ok v, [], 1⟩
    | .flood w =>
      let rest := retry_go behav fj ej maxr (a + 1) fuel
      ⟨rest.outcome, floodSleep w a (fj a) :: rest.sleeps, rest.calls + 1⟩
    | .err e =>
      if a = maxr - 1 then ⟨.raised e, [], 1⟩
      else
        let rest := retry_go behav fj ej maxr (a + 1) fuel
        ⟨rest.outcome, errSleep a (ej a) :: rest.sleeps, rest.calls + 1⟩

/-- `retry_func(client, func, max_retries)` from the source (default
`max_retries=10`), as a function of the wrapped operation's behaviour and
the drawn jitters. -/
def retry_func {α : Type} (behav : Nat → AttemptResult α) (fj ej : Nat → ℚ)
    (maxr : Nat) : RetryTrace α :=
  retry_go behav fj ej maxr 0 maxr

/-! ## The scraper `scrape_groups` -/

/-- A participant as delivered by `iter_participants`. -/
structure TUser where
  uid : Nat
  username : String
  isBot : Bool
  isDeleted : Bool
deriving DecidableEq, Repr

/-- A resolved source group: its administrator ids and its participants. -/
structure Group where
  admins : List Nat
  parts : List TUser
deriving DecidableEq, Repr

/-- The skip test of `scrape_one`:
`u.bot or not u.username or u.deleted or u.id in admin_ids`. -/
def skipCond (admins : List Nat) (u : TUser) : Bool :=
  u.isBot || u.username == "" || u.isDeleted || admins.contains u.uid

/-- Processing one participant: skip if ineligible, otherwise add the
stripped username to the accumulator unless already present, counting a
new entry. -/
def scrape_user (admins : List Nat) (acc : List String × Nat) (u : TUser) :
    List String × Nat :=
  if skipCond admins u then acc
  else
    let uname := pyStrip u.username
    if acc.1.contains uname then acc else (acc.1 ++ [uname], acc.2 + 1)

/-- The participant loop of `scrape_one` over one group. -/
def scrape_one (admins : List Nat) : List TUser → List String × Nat → List String × Nat
  | [], acc => acc
  | u :: us, acc => scrape_one admins us (scrape_user admins acc u)

/-- `scrape_groups` over the fetched groups: a group whose resolution or
enumeration failed (`none`) is caught, logged and skipped; the accumulator
`(alvo, total_new)` is shared across groups.  The saved candidate file's
membership is the first component. -/
def scrape_groups : List (Option Group) → List String × Nat → List String × Nat
  | [], acc => acc
  | og :: rest, acc =>
    match og with
    | none => scrape_groups rest acc
    | some g => scrape_groups rest (scrape_one g.admins g.parts acc)

/-- One scraper run as called by `run_automation_task`: load the candidate
file, start the new-username counter at zero, and drain all groups. -/
def scrape_groups_run (fetch : List (Option Group)) (alvoFile : List String) :
    List String × Nat :=
  scrape_groups fetch (load_set alvoFile, 0)

/-! ## The background task `run_automation_task` and the job status -/

/-- The job status strings used in the database and the in-memory
registry. -/
inductive JobStatus where
  | running
  | stopped
  | completed
  | failed
deriving DecidableEq, Repr

/-- Environment of one background run: whether the account row exists,
whether `client.start()` and the direct `get_entity(target_group)` setup
call succeed, the fetched source groups, the invitation oracle, the stop
flag over time, and the optional cap. -/
structure TaskEnv where
  accountFound : Bool
  startOk : Bool
  destDirect : Bool
  fetch : List (Option Group)
  env : Env
  stopF : Nat → Bool
  maxm : Option Nat

/-- Final observable state of the job after the background task ends. -/
structure TaskRes where
  status : JobStatus
  members_added : Nat
  errors : Nat
  stoppedEarly : Bool
deriving DecidableEq, Repr

/-- `run_automation_task` from the source: any exception before or inside
the pipeline (missing account, failed `client.start()`, failed setup
resolution of the target, unrecovered destination resolution inside
`add_from_file`) is caught by the outer handler and the job is marked
`failed`.  Otherwise the scraper runs, `add_from_file` runs, and the final
flush unconditionally marks the job `completed` — also when the loop ended
early because the stop flag was observed. -/
def run_automation_task (t : TaskEnv) (alvoFile cpFile ledgerFile : List String) : TaskRes :=
  if t.accountFound = false then ⟨.failed, 0, 0, false⟩
  else if t.startOk = false then ⟨.failed, 0, 0, false⟩
  else if t.destDirect = false then ⟨.failed, 0, 0, false⟩
  else
    let sc := scrape_groups_run t.fetch alvoFile
    match add_from_file t.env false t.stopF t.maxm sc.1 cpFile ledgerFile with
    | .error _ => ⟨.failed, 0, 0, false⟩
    | .ok r => ⟨.completed, r.added, r.errs, r.stoppedEarly⟩

/-! ## Derived notions used by the statements -/

/-- The eligible (stripped) usernames contributed by one group's
participant list. -/
def eligNamesP (admins : List Nat) (ps : List TUser) : List String :=
  ps.filterMap (fun u => if skipCond admins u then none else some (pyStrip u.username))

/-- All eligible usernames of a fetched group list. -/
def fetchNames : List (Option Group) → List String
  | [] => []
  | none :: rest => fetchNames rest
  | some g :: rest => eligNamesP g.admins g.parts ++ fetchNames rest

/-! ## Concrete scenario inputs -/

/-- Oracle for the `pending = [alice, bob]` scenario: every resolution
succeeds, nobody is a participant yet, every invite succeeds. -/
def envC1 : Env :=
  ⟨.ok (), fun _ => .ok (), fun _ => .notMember, fun _ => .ok, "@T", "2024-01-01T00:00:00"⟩

/-- A ledger file already holding a record for `alice` (destination
`@D1`). -/
def ledC1 : List String :=
  ["username,destino,timestamp", "alice,@D1,2024-01-01T00:00:00"]

/-- Engine state at the start of an item, destination already resolved. -/
def stC1 : St := ⟨[], ledC1, [], [RCall.resolveDest]⟩

/-- The scenario run: candidates `alice` and `bob`, empty checkpoint,
`alice` in the ledger. -/
def runC1 : Except String RunRes :=
  add_from_file envC1 false (fun _ => false) none ["alice", "bob"] [] ledC1

/-- Oracle for the `carol` scenario: `carol`'s invite raises the privacy
restriction, everything else succeeds. -/
def envC2 : Env :=
  ⟨.ok (), fun _ => .ok (), fun _ => .notMember,
   fun u => if u = "carol" then .privacy else .ok, "@T", "2024-01-01T00:00:00"⟩

/-- Engine state at the start of the `carol` item. -/
def stC2 : St := ⟨[], [], [], [RCall.resolveDest]⟩

/-- First run on candidate `carol` with empty checkpoint and ledger. -/
def runC2a : Except String RunRes :=
  add_from_file envC2 false (fun _ => false) none ["carol"] [] []

/-- A later run over the same candidate file, with the checkpoint file as
the first run left it. -/
def runC2b : Except String RunRes :=
  add_from_file envC2 false (fun _ => false) none ["carol"] (getRun runC2a).st.cp []

/-- A wrapped operation that raises `FloodWaitError` (wait 100 s) on every
attempt. -/
def floodBehavC3 : Nat → AttemptResult Unit := fun _ => AttemptResult.flood 100

/-- Oracle for the stop-flag run: all remote operations succeed. -/
def envC4 : Env :=
  ⟨.ok (), fun _ => .ok (), fun _ => .notMember, fun _ => .ok, "@T", "2024-01-01T00:00:00"⟩

/-- A background run whose stop flag is never set. -/
def tC4run : TaskEnv := ⟨true, true, true, [], envC4, fun _ => false, none⟩

/-- A background run whose job status is already `"stopped"` when the
first candidate is about to be processed. -/
def tC4stop : TaskEnv := ⟨true, true, true, [], envC4, fun _ => true, none⟩

/-- Oracle for the cap scenario: everything succeeds. -/
def envC6 : Env :=
  ⟨.ok (), fun _ => .ok (), fun _ => .notMember, fun _ => .ok, "@T", "2024-01-01T00:00:00"⟩

/-- Oracle for a later job targeting a different destination `@D2`. -/
def envC7 : Env :=
  ⟨.ok (), fun _ => .ok (), fun _ => .notMember, fun _ => .ok, "@D2", "2024-01-02T00:00:00"⟩

/-- Ledger file after `alice` was successfully invited to `@D1`. -/
def ledC7 : List String := ledger_add [] "alice" "@D1" "2024-01-01T00:00:00"

/-- A later run targeting `@D2` whose candidate file still lists `alice`. -/
def runC7 : Except String RunRes :=
  add_from_file envC7 false (fun _ => false) none ["alice", "bob"] [] ledC7

/-- One source group with two eligible members and no admins. -/
def fetchC8 : List (Option Group) :=
  [some ⟨[], [⟨1, "alice", false, false⟩, ⟨2, "bob", false, false⟩]⟩]

/-- One source group whose only participant has a whitespace-only
username: it passes the `not u.username` eligibility test (the string is
non-empty) but strips to the empty string. -/
def fetchC8ws : List (Option Group) :=
  [some ⟨[], [⟨1, " ", false, false⟩]⟩]

/-- Oracle whose participant check fails with an unexpected error. -/
def envC10 : Env :=
  ⟨.ok (), fun _ => .ok (), fun _ => .failed "boom", fun _ => .ok, "@T", "2024-01-01T00:00:00"⟩

/-- Fresh engine state for the participant-check-error scenario. -/
def stC10 : St := ⟨[], [], [], []⟩

/-! ## Helper lemmas -/

theorem add_from_file_ok (env : Env) (sim : Bool) (stopF : Nat → Bool) (maxm : Option Nat)
    (aF cF lF : List String) (hd : env.destRetry = Except.ok ()) :
    add_from_file env sim stopF maxm aF cF lF =
      Except.ok
        (if (truncTo maxm ((load_set aF).filter fun u => !(load_set cF).contains u)).isEmpty
         then ⟨0, 0, [], false, ⟨cF, lF, [], [RCall.resolveDest]⟩⟩
         else add_loop env sim stopF
           (truncTo maxm ((load_set aF).filter fun u => !(load_set cF).contains u))
           0 0 0 ⟨cF, lF, [], [RCall.resolveDest]⟩) := by
  rw [add_from_file, hd]
  dsimp only
  split <;> rfl

theorem add_one_seen (env : Env) (sim : Bool) (st : St) (u : String)
    (h : ledger_seen st.ledger u = true) :
    add_one env sim st u = (0, { st with cp := st.cp ++ [u] }) := by
  simp [add_one, h]

theorem ledger_seen_append (L X : List String) (u : String)
    (h : ledger_seen L u = true) : ledger_seen (L ++ X) u = true := by
  simp only [ledger_seen, List.any_append]
  simp only [ledger_seen] at h
  simp [h]

theorem ledger_seen_ne_nil {L : List String} {u : String}
    (h : ledger_seen L u = true) : L.isEmpty = false := by
  cases L with
  | nil => simp [ledger_seen] at h
  | cons a l => rfl

theorem ledger_seen_ledger_add (L : List String) (v d ts u : String)
    (h : ledger_seen L u = true) :
    ledger_seen (ledger_add L v d ts) u = true := by
  rw [ledger_add, ledger_seen_ne_nil h]
  simpa using ledger_seen_append L [mkLine v d ts] u h

theorem add_one_ledger_seen_mono (env : Env) (sim : Bool) (st : St) (u w : String)
    (h : ledger_seen st.ledger w = true) :
    ledger_seen (add_one env sim st u).2.ledger w = true := by
  by_cases h1 : ledger_seen st.ledger u
  · simp [add_one, h1, h]
  · cases h2 : env.resolve u with
    | error e => simp [add_one, h1, h2, h]
    | ok v =>
      cases h3 : env.check u with
      | isMember => simp [add_one, h1, h2, h3, h]
      | failed e => simp [add_one, h1, h2, h3, h]
      | notMember =>
        cases sim with
        | true => simp [add_one, h1, h2, h3, h]
        | false =>
          cases h4 : env.invite u with
          | ok =>
            simp only [add_one, h1, h2, h3, h4]
            simp only [Bool.false_eq_true, if_false]
            exact ledger_seen_ledger_add st.ledger u env.dest env.now w h
          | privacy => simp [add_one, h1, h2, h3, h4, h]
          | failed e => simp [add_one, h1, h2, h3, h4, h]

theorem add_one_calls_clean (env : Env) (sim : Bool) (st : St) (u w : String)
    (hne : w ≠ u) (h : callsClean w st.calls = true) :
    callsClean w (add_one env sim st u).2.calls = true := by
  have hne' : (some u != some w) = true := by
    simp only [bne_iff_ne, ne_eq, Option.some.injEq]
    exact fun hh => hne hh.symm
  have h' : ∀ x ∈ st.calls, (callUser x != some w) = true := List.all_eq_true.mp h
  by_cases h1 : ledger_seen st.ledger u
  · simp [add_one, h1, h]
  · cases h2 : env.resolve u with
    | error e =>
      simp [add_one, h1, h2, callsClean, List.all_append, callUser, hne']
      intro x hx
      have hh := h' x hx
      simpa [callUser] using hh
    | ok v =>
      cases h3 : env.check u with
      | isMember =>
        simp [add_one, h1, h2, h3, callsClean, List.all_append, callUser, hne']
        intro x hx
        have hh := h' x hx
        simpa [callUser] using hh
      | failed e =>
        simp [add_one, h1, h2, h3, callsClean, List.all_append, callUser, hne']
        intro x hx
        have hh := h' x hx
        simpa [callUser] using hh
      | notMember =>
        cases sim with
        | true =>
          simp [add_one, h1, h2, h3, callsClean, List.all_append, callUser, hne']
          intro x hx
          have hh := h' x hx
          simpa [callUser] using hh
        | false =>
          cases h4 : env.invite u with
          | ok =>
            simp [add_one, h1, h2, h3, h4, callsClean, List.all_append, callUser, hne']
            intro x hx
            have hh := h' x hx
            simpa [callUser] using hh
          | privacy =>
            simp [add_one, h1, h2, h3, h4, callsClean, List.all_append, callUser, hne']
            intro x hx
            have hh := h' x hx
            simpa [callUser] using hh
          | failed e =>
            simp [add_one, h1, h2, h3, h4, callsClean, List.all_append, callUser, hne']
            intro x hx
            have hh := h' x hx
            simpa [callUser] using hh

theorem add_loop_mem_attempted (env : Env) (sim : Bool) (stopF : Nat → Bool) :
    ∀ (pend : List String) (i ok errs : Nat) (st : St) (v : String),
      v ∈ (add_loop env sim stopF pend i ok errs st).attempted → v ∈ pend := by
  intro pend
  induction pend with
  | nil => intro i ok errs st v hv; simp [add_loop] at hv
  | cons u rest ih =>
    intro i ok errs st v hv
    by_cases hs : stopF i
    · simp [add_loop, hs] at hv
    · simp only [add_loop, hs, Bool.false_eq_true, if_false] at hv
      rcases List.mem_cons.mp hv with rfl | hv'
      · exact List.mem_cons_self _ _
      · exact List.mem_cons_of_mem _ (ih _ _ _ _ _ hv')

theorem add_loop_noStop_attempted (env : Env) (sim : Bool) :
    ∀ (pend : List String) (i ok errs : Nat) (st : St),
      (add_loop env sim (fun _ => false) pend i ok errs st).attempted = pend := by
  intro pend
  induction pend with
  | nil => intro i ok errs st; rfl
  | cons u rest ih => intro i ok errs st; simp [add_loop, ih]

theorem add_loop_calls_clean (env : Env) (sim : Bool) (stopF : Nat → Bool) (w : String) :
    ∀ (pend : List String) (i ok errs : Nat) (st : St),
      (ledger_seen st.ledger w = true ∨ w ∉ pend) →
      callsClean w st.calls = true →
      callsClean w (add_loop env sim stopF pend i ok errs st).st.calls = true := by
  intro pend
  induction pend with
  | nil => intro i ok errs st _hcond hclean; simpa [add_loop] using hclean
  | cons u rest ih =>
    intro i ok errs st hcond hclean
    by_cases hs : stopF i
    · simpa [add_loop, hs] using hclean
    · simp only [add_loop, hs, Bool.false_eq_true, if_false]
      apply ih
      · rcases hcond with hseen | hnot
        · exact Or.inl (add_one_ledger_seen_mono env sim st u w hseen)
        · exact Or.inr (fun hmem => hnot (List.mem_cons_of_mem _ hmem))
      · rcases hcond with hseen | hnot
        · by_cases hw : w = u
          · subst hw
            rw [add_one_seen env sim st w hseen]
            simpa using hclean
          · exact add_one_calls_clean env sim st u w hw hclean
        · have hw : w ≠ u := fun hh => hnot (hh ▸ List.mem_cons_self u rest)
          exact add_one_calls_clean env sim st u w hw hclean

theorem mem_load_set_of (l : List String) (u : String) (hu : u ∈ l)
    (hstrip : pyStrip u = u) (hne : u ≠ "") : u ∈ load_set l := by
  simp only [load_set, List.mem_dedup, List.mem_filter, List.mem_map]
  exact ⟨⟨u, hu, hstrip⟩, by simpa using hne⟩

theorem mem_truncTo {maxm : Option Nat} {l : List String} {u : String}
    (h : u ∈ truncTo maxm l) : u ∈ l := by
  cases maxm with
  | none => exact h
  | some k => exact List.take_subset k l h

theorem not_mem_pend_of_cp (aF cF : List String) (maxm : Option Nat) (u : String)
    (h : u ∈ load_set cF) :
    u ∉ truncTo maxm ((load_set aF).filter (fun v => !(load_set cF).contains v)) := by
  intro hmem
  have hmem' := mem_truncTo hmem
  rw [List.mem_filter] at hmem'
  have hc : (load_set cF).contains u = true := List.elem_eq_true_of_mem h
  rw [hc] at hmem'
  simp at hmem'

theorem sdata_append (a b : String) : (a ++ b).data = a.data ++ b.data := by
  cases a
  cases b
  rfl

theorem takeWhile_append_comma (l : List Char) (h : ∀ c ∈ l, (c != ',') = true) :
    ∀ r : List Char, (l ++ ',' :: r).takeWhile (fun c => c != ',') = l := by
  induction l with
  | nil => intro r; simp
  | cons a as ih =>
    intro r
    have ha : (a != ',') = true := h a (List.mem_cons_self _ _)
    simp only [List.cons_append, List.takeWhile_cons, ha]
    simp [ih (fun c hc => h c (List.mem_cons_of_mem _ hc)) r]

theorem header_not_prefixOf (ud : List Char) (hcf : ∀ c ∈ ud, (c != ',') = true)
    (hne : ud ≠ "username".data) (r : List Char) :
    "username,".data.isPrefixOf (ud ++ ',' :: r) = false := by
  cases hb : "username,".data.isPrefixOf (ud ++ ',' :: r) with
  | false => rfl
  | true =>
    exfalso
    have hpre : "username,".data <+: (ud ++ ',' :: r) :=
      List.isPrefixOf_iff_prefix.mp hb
    obtain ⟨t, ht⟩ := hpre
    have hdata : "username,".data = "username".data ++ [','] := rfl
    rw [hdata] at ht
    have ht' : "username".data ++ ',' :: t = ud ++ ',' :: r := by
      simpa [List.append_assoc] using ht
    have h1 := takeWhile_append_comma "username".data (by decide) t
    rw [ht'] at h1
    rw [takeWhile_append_comma ud hcf r] at h1
    exact hne h1

theorem mkLine_data (u d ts : String) :
    (mkLine u d ts).data = u.data ++ ',' :: (d.data ++ ',' :: ts.data) := by
  have hc : (",").data = [','] := rfl
  simp [mkLine, sdata_append, hc]

theorem ledger_seen_after_add (L : List String) (u d ts : String)
    (hcf : (u.data.all fun c => c != ',') = true) (hne : u ≠ "username") :
    ledger_seen (ledger_add L u d ts) u = true := by
  have hcf' : ∀ c ∈ u.data, (c != ',') = true := List.all_eq_true.mp hcf
  have hned : u.data ≠ "username".data := by
    intro hh
    apply hne
    cases u
    cases hh
    rfl
  have hhead : startsWithHeader (mkLine u d ts) = false := by
    rw [startsWithHeader, mkLine_data]
    exact header_not_prefixOf u.data hcf' hned _
  have hfield : firstField (mkLine u d ts) = u := by
    rw [firstField, mkLine_data]
    rw [takeWhile_append_comma u.data hcf' _]
  rw [ledger_seen, ledger_add, List.any_append]
  have hline : (List.any [mkLine u d ts] fun line =>
      !startsWithHeader line && (firstField line == u)) = true := by
    simp [hhead, hfield]
  rw [hline, Bool.or_true]

theorem eligNamesP_cons (admins : List Nat) (u : TUser) (us : List TUser) :
    eligNamesP admins (u :: us) =
      if skipCond admins u then eligNamesP admins us
      else pyStrip u.username :: eligNamesP admins us := by
  rw [eligNamesP, List.filterMap_cons]
  by_cases h : skipCond admins u <;> simp [h, eligNamesP]

theorem scrape_user_mem (admins : List Nat) (acc : List String × Nat) (u : TUser)
    (v : String) (hv : v ∈ acc.1) : v ∈ (scrape_user admins acc u).1 := by
  unfold scrape_user
  by_cases h1 : skipCond admins u
  · simp [h1, hv]
  · by_cases h2 : pyStrip u.username ∈ acc.1
    · simp [h1, h2, hv]
    · simp [h1, h2]
      exact Or.inl hv

theorem scrape_one_mem (admins : List Nat) :
    ∀ (ps : List TUser) (acc : List String × Nat) (v : String),
      v ∈ acc.1 → v ∈ (scrape_one admins ps acc).1 := by
  intro ps
  induction ps with
  | nil => intro acc v hv; exact hv
  | cons u us ih =>
    intro acc v hv
    exact ih _ v (scrape_user_mem admins acc u v hv)

theorem scrape_groups_mem :
    ∀ (fetch : List (Option Group)) (acc : List String × Nat) (v : String),
      v ∈ acc.1 → v ∈ (scrape_groups fetch acc).1 := by
  intro fetch
  induction fetch with
  | nil => intro acc v hv; exact hv
  | cons og rest ih =>
    intro acc v hv
    cases og with
    | none => exact ih _ v hv
    | some g => exact ih _ v (scrape_one_mem g.admins g.parts acc v hv)

theorem scrape_one_elig (admins : List Nat) :
    ∀ (ps : List TUser) (acc : List String × Nat) (v : String),
      v ∈ eligNamesP admins ps → v ∈ (scrape_one admins ps acc).1 := by
  intro ps
  induction ps with
  | nil => intro acc v hv; simp [eligNamesP] at hv
  | cons u us ih =>
    intro acc v hv
    rw [eligNamesP_cons] at hv
    by_cases h1 : skipCond admins u
    · rw [if_pos h1] at hv
      exact ih _ v hv
    · rw [if_neg h1] at hv
      rcases List.mem_cons.mp hv with rfl | hv'
      · show pyStrip u.username ∈ (scrape_one admins us (scrape_user admins acc u)).1
        apply scrape_one_mem
        unfold scrape_user
        by_cases h2 : pyStrip u.username ∈ acc.1
        · simp [h1, h2]
        · simp [h1, h2]
      · exact ih _ v hv'

theorem scrape_groups_elig :
    ∀ (fetch : List (Option Group)) (acc : List String × Nat) (v : String),
      v ∈ fetchNames fetch → v ∈ (scrape_groups fetch acc).1 := by
  intro fetch
  induction fetch with
  | nil => intro acc v hv; simp [fetchNames] at hv
  | cons og rest ih =>
    intro acc v hv
    cases og with
    | none => exact ih _ v hv
    | some g =>
      rcases List.mem_append.mp hv with hv' | hv'
      · exact scrape_groups_mem rest _ v (scrape_one_elig g.admins g.parts acc v hv')
      · exact ih _ v hv'

theorem scrape_user_noop (admins : List Nat) (acc : List String × Nat) (u : TUser)
    (h : skipCond admins u = false → pyStrip u.username ∈ acc.1) :
    scrape_user admins acc u = acc := by
  unfold scrape_user
  by_cases h1 : skipCond admins u
  · simp [h1]
  · have h1' : skipCond admins u = false := by simpa using h1
    simp [h1, h h1']

theorem scrape_one_noop (admins : List Nat) :
    ∀ (ps : List TUser) (acc : List String × Nat),
      (∀ v ∈ eligNamesP admins ps, v ∈ acc.1) → scrape_one admins ps acc = acc := by
  intro ps
  induction ps with
  | nil => intro acc _h; rfl
  | cons u us ih =>
    intro acc h
    have hu : scrape_user admins acc u = acc := by
      apply scrape_user_noop
      intro hskip
      apply h
      rw [eligNamesP_cons, if_neg (by simp [hskip])]
      exact List.mem_cons_self _ _
    show scrape_one admins us (scrape_user admins acc u) = acc
    rw [hu]
    apply ih
    intro v hv
    apply h
    rw [eligNamesP_cons]
    by_cases h1 : skipCond admins u
    · rwa [if_pos h1]
    · rw [if_neg h1]
      exact List.mem_cons_of_mem _ hv

theorem scrape_groups_noop :
    ∀ (fetch : List (Option Group)) (acc : List String × Nat),
      (∀ v ∈ fetchNames fetch, v ∈ acc.1) → scrape_groups fetch acc = acc := by
  intro fetch
  induction fetch with
  | nil => intro acc _h; rfl
  | cons og rest ih =>
    intro acc h
    cases og with
    | none => exact ih acc h
    | some g =>
      show scrape_groups rest (scrape_one g.admins g.parts acc) = acc
      rw [scrape_one_noop g.admins g.parts acc
        (fun v hv => h v (List.mem_append_left _ hv))]
      exact ih acc (fun v hv => h v (List.mem_append_right _ hv))

/-! ## Claim theorems -/

/-- C1 (counterexample).  The claim asserts that a candidate already in
the Ledger is skipped with no increment to either counter, so the
`pending = [alice, bob]` scenario with `alice` in the Ledger and `bob`'s
invite succeeding would return `(added = 1, errors = 0)`.  On the code,
`add_from_file` increments `total_errors` for every `add_one` result other
than `1`, including the ledger skip, so the scenario returns
`(added = 1, errors = 1)`. -/
theorem C1_counterexample :
    (getRun runC1).added = 1 ∧ (getRun runC1).errs = 1 ∧
    ¬((getRun runC1).added = 1 ∧ (getRun runC1).errs = 0) := by
  refine ⟨by decide, by decide, ?_⟩
  intro h
  exact absurd h.2 (by decide)

/-- C1 (amended).  A candidate already in the Ledger is appended to the
Checkpoint and `add_one` returns `0` without touching the ledger, the logs
or the remote-call trace; the `added` counter is not incremented, but the
run counts the skip toward the `errors` counter: the scenario
`pending = [alice, bob]` with `alice` in the Ledger and `bob`'s invite
succeeding returns `(added = 1, errors = 1)`, checkpoints both names, and
makes remote calls only for `bob`. -/
theorem C1_ledger_skip_counts :
    (∀ (env : Env) (sim : Bool) (st : St) (u : String),
        ledger_seen st.ledger u = true →
        add_one env sim st u = (0, { st with cp := st.cp ++ [u] })) ∧
    (getRun runC1).added = 1 ∧ (getRun runC1).errs = 1 ∧
    (getRun runC1).st.cp = ["alice", "bob"] ∧
    (getRun runC1).st.calls =
      [RCall.resolveDest, RCall.resolveUser "bob", RCall.partCheck "bob", RCall.invite "bob"] := by
  refine ⟨add_one_seen, ?_, ?_, ?_, ?_⟩ <;> decide

/-- C1 (witness). -/
theorem C1_witness :
    ledger_seen stC1.ledger "alice" = true ∧
    add_one envC1 false stC1 "alice" = (0, { stC1 with cp := stC1.cp ++ ["alice"] }) :=
  ⟨by decide, C1_ledger_skip_counts.1 envC1 false stC1 "alice" (by decide)⟩

/-- C2 (counterexample).  The claim asserts that a privacy-restricted
candidate increments neither counter.  On the code, `add_one` returns `0`
for the privacy path and `add_from_file` counts every non-`1` result as an
error, so `carol`'s run ends with `errors = 1`, not `0`. -/
theorem C2_counterexample :
    (getRun runC2a).st.cp = ["carol"] ∧ (getRun runC2a).added = 0 ∧
    (getRun runC2a).errs = 1 ∧ ¬(getRun runC2a).errs = 0 := by
  refine ⟨by decide, by decide, by decide, ?_⟩
  intro h
  exact absurd h (by decide)

/-- C2 (amended).  A candidate whose invite raises the privacy
restriction is appended to the Checkpoint and logged `privacidade`; the
`added` counter is not incremented but the run counts the item toward the
`errors` counter; and because the username is in the checkpoint file, no
future run ever attempts it again (`attempted` of any later run excludes
every username of the loaded checkpoint): `carol`'s run returns
`(0, 1)`, checkpoints `carol`, and a second run attempts nobody. -/
theorem C2_privacy_checkpoint :
    (∀ (env : Env) (st : St) (u : String),
        ledger_seen st.ledger u = false →
        env.resolve u = Except.ok () →
        env.check u = PartRes.notMember →
        env.invite u = InvRes.privacy →
        add_one env false st u =
          (0, { st with cp := st.cp ++ [u],
                        logs := st.logs ++ [("privacidade", u, "")],
                        calls := st.calls ++
                          [RCall.resolveUser u, RCall.partCheck u, RCall.invite u] })) ∧
    (∀ (env : Env) (stopF : Nat → Bool) (maxm : Option Nat)
        (aF cF lF : List String) (u : String) (r : RunRes),
        u ∈ load_set cF →
        add_from_file env false stopF maxm aF cF lF = Except.ok r →
        u ∉ r.attempted) ∧
    (getRun runC2a).added = 0 ∧ (getRun runC2a).errs = 1 ∧
    (getRun runC2a).st.cp = ["carol"] ∧
    (getRun runC2b).attempted = [] := by
  refine ⟨?_, ?_, by decide, by decide, by decide, by decide⟩
  · intro env st u h1 h2 h3 h4
    simp [add_one, h1, h2, h3, h4, List.append_assoc]
  · intro env stopF maxm aF cF lF u r hcp hr
    intro hmem
    cases hd : env.destRetry with
    | error e => simp [add_from_file, hd] at hr
    | ok v =>
      obtain ⟨⟩ := v
      rw [add_from_file_ok env false stopF maxm aF cF lF hd] at hr
      injection hr with hr
      subst hr
      by_cases hp :
          (truncTo maxm ((load_set aF).filter fun w => !(load_set cF).contains w)).isEmpty
      · rw [if_pos hp] at hmem
        simp at hmem
      · rw [if_neg hp] at hmem
        exact not_mem_pend_of_cp aF cF maxm u hcp
          (add_loop_mem_attempted _ _ _ _ _ _ _ _ _ hmem)

/-- C2 (witness). -/
theorem C2_witness :
    ledger_seen stC2.ledger "carol" = false ∧
    envC2.resolve "carol" = Except.ok () ∧
    envC2.check "carol" = PartRes.notMember ∧
    envC2.invite "carol" = InvRes.privacy ∧
    add_one envC2 false stC2 "carol" =
      (0, { stC2 with cp := stC2.cp ++ ["carol"],
                      logs := stC2.logs ++ [("privacidade", "carol", "")],
                      calls := stC2.calls ++
                        [RCall.resolveUser "carol", RCall.partCheck "carol",
                         RCall.invite "carol"] }) :=
  ⟨rfl, rfl, rfl, rfl,
    C2_privacy_checkpoint.1 envC2 stC2 "carol" rfl rfl rfl rfl⟩

/-- C3 (counterexample).  The claim asserts an uncapped attempt count for
rate-limit waits — a rate-limit wait always leads to another retry and is
never exhausted by the fixed attempt budget.  On the code the
`for attempt in range(max_retries)` loop bounds rate-limited attempts too:
with every attempt raising `FloodWaitError`, exactly 10 calls are made and
the wrapper then returns `None` instead of retrying an 11th time. -/
theorem C3_counterexample :
    (retry_func floodBehavC3 (fun _ => 10) (fun _ => 1) 10).calls = 10 ∧
    (retry_func floodBehavC3 (fun _ => 10) (fun _ => 1) 10).outcome =
      RetryOutcome.noneReturn :=
  ⟨rfl, rfl⟩

/-- C3 (amended).  On a rate-limit signal with suggested wait `w` at
attempt `a`, the wrapper sleeps `min(w * 1.5 ^ a, 3600) + jitter(5, 15)`
and retries — but only within the fixed attempt budget shared with the
other errors: with rate-limit failures on every attempt it performs
exactly 10 calls and the 10 corresponding sleeps and then returns `None`
rather than retrying further. -/
theorem C3_floodwait_capped (ws : Nat → ℚ) (fj ej : Nat → ℚ) :
    retry_func (fun a => (AttemptResult.flood (ws a) : AttemptResult Unit)) fj ej 10 =
      ⟨RetryOutcome.noneReturn,
       [floodSleep (ws 0) 0 (fj 0), floodSleep (ws 1) 1 (fj 1), floodSleep (ws 2) 2 (fj 2),
        floodSleep (ws 3) 3 (fj 3), floodSleep (ws 4) 4 (fj 4), floodSleep (ws 5) 5 (fj 5),
        floodSleep (ws 6) 6 (fj 6), floodSleep (ws 7) 7 (fj 7), floodSleep (ws 8) 8 (fj 8),
        floodSleep (ws 9) 9 (fj 9)], 10⟩ :=
  rfl

/-- C5.  When attempts fail with errors other than a rate-limit signal,
the wrapper sleeps `1.5 ^ attempt + jitter(0, 3)` between attempts (no
sleep after the last one), makes at most the budgeted 10 attempts, and on
exhaustion re-raises the error of the last attempt. -/
theorem C5_transient_budget (es : Nat → String) (fj ej : Nat → ℚ) :
    retry_func (fun a => (AttemptResult.err (es a) : AttemptResult Unit)) fj ej 10 =
      ⟨RetryOutcome.raised (es 9),
       [errSleep 0 (ej 0), errSleep 1 (ej 1), errSleep 2 (ej 2), errSleep 3 (ej 3),
        errSleep 4 (ej 4), errSleep 5 (ej 5), errSleep 6 (ej 6), errSleep 7 (ej 7),
        errSleep 8 (ej 8)], 10⟩ :=
  rfl

/-- C9.  When every one of the 10 budgeted attempts raises a rate-limit
error, the loop is exhausted: the wrapper performs the final sleep (10
sleeps in total for 10 calls), raises nothing, and returns Python's
implicit `None` — so a caller expecting an entity can receive `None`. -/
theorem C9_flood_exhaustion_none (ws : Nat → ℚ) (fj ej : Nat → ℚ) :
    (retry_func (fun a => (AttemptResult.flood (ws a) : AttemptResult Unit)) fj ej 10).outcome =
        RetryOutcome.noneReturn ∧
    (retry_func (fun a => (AttemptResult.flood (ws a) : AttemptResult Unit)) fj ej 10).calls = 10 ∧
    (retry_func (fun a => (AttemptResult.flood (ws a) : AttemptResult Unit)) fj ej 10).sleeps.length
        = 10 :=
  ⟨rfl, rfl, rfl⟩

/-- C4 (counterexample).  The claim asserts that once a job's status is
`stopped` it never later transitions to `completed` (stop takes precedence
over completed at flush time).  On the code, the final flush of
`run_automation_task` sets `completed` unconditionally: in a run whose
status registry says `"stopped"` before the first candidate (so the loop
breaks before processing anything, `stoppedEarly = true`), the final
status is still `completed`, not `stopped`. -/
theorem C4_counterexample :
    (run_automation_task tC4stop ["dave"] [] []).stoppedEarly = true ∧
    (run_automation_task tC4stop ["dave"] [] []).status = JobStatus.completed ∧
    (run_automation_task tC4stop ["dave"] [] []).status ≠ JobStatus.stopped := by
  refine ⟨by decide, by decide, ?_⟩
  intro h
  exact absurd h (by decide)

/-- C4 (amended).  `stopped` is not terminal with respect to the final
flush: on the success path (account found, client started, target
resolved, destination resolution inside `add_from_file` succeeded) the
pipeline's final flush unconditionally sets the job status to
`completed`, also when the stop flag was observed mid-run — `completed`
overwrites `stopped` at flush time. -/
theorem C4_flush_completed (t : TaskEnv) (aF cF lF : List String)
    (h1 : t.accountFound = true) (h2 : t.startOk = true) (h3 : t.destDirect = true)
    (h4 : t.env.destRetry = Except.ok ()) :
    (run_automation_task t aF cF lF).status = JobStatus.completed := by
  have hrun := add_from_file_ok t.env false t.stopF t.maxm
    (scrape_groups_run t.fetch aF).1 cF lF h4
  simp [run_automation_task, h1, h2, h3, hrun]

/-- C4 (witness). -/
theorem C4_witness :
    tC4stop.accountFound = true ∧ tC4stop.startOk = true ∧ tC4stop.destDirect = true ∧
    tC4stop.env.destRetry = Except.ok () ∧
    (run_automation_task tC4stop ["eve"] [] []).status = JobStatus.completed :=
  ⟨rfl, rfl, rfl, rfl, C4_flush_completed tC4stop ["eve"] [] [] rfl rfl rfl rfl⟩

/-- C6.  With the destination resolvable, `add_from_file` attempts exactly
the pending list — the loaded candidate set minus the loaded checkpoint
set, truncated to the cap when one is provided — in particular the number
of attempted candidates is `min k |pending|` for cap `k` (so exactly `k`
when `|pending| > k`); and when the pending list is empty it returns
`(0, 0)` at once, leaving the checkpoint and ledger files untouched. -/
theorem C6_pending_cap (env : Env) (maxm : Option Nat) (aF cF lF : List String)
    (hd : env.destRetry = Except.ok ()) :
    (getRun (add_from_file env false (fun _ => false) maxm aF cF lF)).attempted =
        truncTo maxm ((load_set aF).filter fun u => !(load_set cF).contains u) ∧
    (getRun (add_from_file env false (fun _ => false) maxm aF cF lF)).attempted.length =
        (match maxm with
         | some k => min k ((load_set aF).filter fun u => !(load_set cF).contains u).length
         | none => ((load_set aF).filter fun u => !(load_set cF).contains u).length) ∧
    (truncTo maxm ((load_set aF).filter fun u => !(load_set cF).contains u) = [] →
      (getRun (add_from_file env false (fun _ => false) maxm aF cF lF)).added = 0 ∧
      (getRun (add_from_file env false (fun _ => false) maxm aF cF lF)).errs = 0 ∧
      (getRun (add_from_file env false (fun _ => false) maxm aF cF lF)).st.cp = cF ∧
      (getRun (add_from_file env false (fun _ => false) maxm aF cF lF)).st.ledger = lF) := by
  have hrun := add_from_file_ok env false (fun _ => false) maxm aF cF lF hd
  by_cases hp : (truncTo maxm ((load_set aF).filter fun u => !(load_set cF).contains u)).isEmpty
  · rw [if_pos hp] at hrun
    have hpnil : truncTo maxm ((load_set aF).filter fun u => !(load_set cF).contains u) = [] :=
      List.isEmpty_iff.mp hp
    rw [hrun]
    refine ⟨by simpa [getRun] using hpnil.symm, ?_, fun _ => ⟨rfl, rfl, rfl, rfl⟩⟩
    cases maxm with
    | some k =>
      have hmin :
          min k ((load_set aF).filter fun u => !(load_set cF).contains u).length = 0 := by
        rw [← List.length_take]
        rw [show ((load_set aF).filter fun u => !(load_set cF).contains u).take k = []
          from hpnil]
        rfl
      exact hmin.symm
    | none =>
      have hnil : ((load_set aF).filter fun u => !(load_set cF).contains u) = [] := hpnil
      exact (congrArg List.length hnil).symm
  · rw [if_neg hp] at hrun
    rw [hrun]
    have hA := add_loop_noStop_attempted env false
      (truncTo maxm ((load_set aF).filter fun u => !(load_set cF).contains u)) 0 0 0
      ⟨cF, lF, [], [RCall.resolveDest]⟩
    refine ⟨hA, ?_, ?_⟩
    · rw [show (getRun (Except.ok (add_loop env false (fun _ => false)
        (truncTo maxm ((load_set aF).filter fun u => !(load_set cF).contains u)) 0 0 0
        ⟨cF, lF, [], [RCall.resolveDest]⟩))).attempted =
          truncTo maxm ((load_set aF).filter fun u => !(load_set cF).contains u) from hA]
      cases maxm with
      | some k => exact List.length_take k _
      | none => rfl
    · intro hpend
      exact absurd (List.isEmpty_iff.mpr hpend) hp

/-- C6 (witness). -/
theorem C6_witness :
    envC6.destRetry = Except.ok () ∧
    (getRun (add_from_file envC6 false (fun _ => false) (some 1)
        ["alice", "bob", "carol"] ["bob"] [])).attempted =
      truncTo (some 1)
        ((load_set ["alice", "bob", "carol"]).filter fun u =>
          !(load_set ["bob"]).contains u) :=
  ⟨rfl, (C6_pending_cap envC6 (some 1) ["alice", "bob", "carol"] ["bob"] [] rfl).1⟩

/-- C7.  A username the ledger membership test recognises is skipped
before resolution: `add_one` only appends it to the checkpoint, touching
neither the counters nor the call trace.  A successful invite of a
comma-free username other than the literal `"username"` (which collides
with the CSV header skip) to any destination makes the membership test
recognise it thereafter — the destination field is ignored.  And at run
level, a username recognised by the ledger test (or already in the loaded
checkpoint) generates no remote call at all, whatever the run's target. -/
theorem C7_ledger_exclusion :
    (∀ (env : Env) (sim : Bool) (st : St) (u : String),
        ledger_seen st.ledger u = true →
        add_one env sim st u = (0, { st with cp := st.cp ++ [u] })) ∧
    (∀ (L : List String) (u d ts : String),
        (u.data.all fun c => c != ',') = true → u ≠ "username" →
        ledger_seen (ledger_add L u d ts) u = true) ∧
    (∀ (env : Env) (stopF : Nat → Bool) (maxm : Option Nat) (aF cF lF : List String)
        (u : String) (r : RunRes),
        (ledger_seen lF u = true ∨ u ∈ load_set cF) →
        add_from_file env false stopF maxm aF cF lF = Except.ok r →
        callsClean u r.st.calls = true) := by
  refine ⟨add_one_seen, ledger_seen_after_add, ?_⟩
  intro env stopF maxm aF cF lF u r hcond hr
  cases hd : env.destRetry with
  | error e => simp [add_from_file, hd] at hr
  | ok v =>
    obtain ⟨⟩ := v
    rw [add_from_file_ok env false stopF maxm aF cF lF hd] at hr
    injection hr with hr
    subst hr
    by_cases hp :
        (truncTo maxm ((load_set aF).filter fun w => !(load_set cF).contains w)).isEmpty
    · rw [if_pos hp]
      simp [callsClean, callUser]
    · rw [if_neg hp]
      apply add_loop_calls_clean
      · rcases hcond with hseen | hcp
        · exact Or.inl hseen
        · exact Or.inr (not_mem_pend_of_cp aF cF maxm u hcp)
      · simp [callsClean, callUser]

/-- C7 (witness). -/
theorem C7_witness :
    ("alice".data.all fun c => c != ',') = true ∧
    "alice" ≠ "username" ∧
    ledger_seen (ledger_add [] "alice" "@D1" "2024-01-01T00:00:00") "alice" = true ∧
    ledger_seen ledC7 "alice" = true ∧
    callsClean "alice" (getRun runC7).st.calls = true :=
  ⟨by decide, by decide,
   C7_ledger_exclusion.2.1 [] "alice" "@D1" "2024-01-01T00:00:00" (by decide) (by decide),
   by decide,
   C7_ledger_exclusion.2.2 envC7 (fun _ => false) none ["alice", "bob"] [] ledC7 "alice"
     (getRun runC7) (Or.inl (by decide)) rfl⟩

/-- C8 (counterexample).  The claim asserts that a second scrape of the
same source groups with unchanged eligible membership adds zero new
entries and returns a new-username count of 0.  On the code this fails
for a participant whose username is whitespace-only: `" "` passes the
`not u.username` eligibility test, strips to `""`, and is counted and
added; `save_set` persists it as an empty line, which `load_set` drops on
reload, so the second run over the persisted candidate set re-adds it and
returns 1, not 0. -/
theorem C8_counterexample :
    (scrape_groups_run fetchC8ws []).1 = [""] ∧
    (scrape_groups_run fetchC8ws []).2 = 1 ∧
    (scrape_groups_run fetchC8ws [""]).2 = 1 ∧
    ¬(scrape_groups_run fetchC8ws [""]).2 = 0 := by
  refine ⟨by decide, by decide, by decide, ?_⟩
  intro h
  exact absurd h (by decide)

/-- C8 (amended).  The scraper is idempotent with respect to the
persisted candidate set provided the persist/reload round-trip retains
every username present after the first run: if the reloaded candidate
file still contains every username produced by a first scrape of the same
groups, then a second scrape of those groups changes nothing and returns
a new-username count of 0 — insertion into the accumulator never writes
duplicates.  (The proviso fails exactly in the counterexample's case: a
username that strips to the empty string is persisted as an empty line
that reload drops.) -/
theorem C8_scraper_idempotent (fetch : List (Option Group)) (aF file1 : List String)
    (h : ((scrape_groups_run fetch aF).1.all fun u => (load_set file1).contains u) = true) :
    scrape_groups_run fetch file1 = (load_set file1, 0) := by
  have h' : ∀ u ∈ (scrape_groups_run fetch aF).1, u ∈ load_set file1 := by
    intro u hu
    exact List.mem_of_elem_eq_true (List.all_eq_true.mp h u hu)
  show scrape_groups fetch (load_set file1, 0) = (load_set file1, 0)
  apply scrape_groups_noop
  intro v hv
  exact h' v (scrape_groups_elig fetch (load_set aF, 0) v hv)

/-- C8 (witness). -/
theorem C8_witness :
    ((scrape_groups_run fetchC8 []).1.all fun u => (load_set ["alice", "bob"]).contains u)
        = true ∧
    scrape_groups_run fetchC8 ["alice", "bob"] = (load_set ["alice", "bob"], 0) :=
  ⟨by decide, C8_scraper_idempotent fetchC8 [] ["alice", "bob"] (by decide)⟩

/-- C10.  When resolution succeeds but the participant check fails with
an error other than the not-a-participant signal, the candidate is
handled by the same outer handler as a resolution failure: the error is
logged as `resolver_fail`, the username is not appended to the checkpoint
(the state's checkpoint, ledger and logs are otherwise untouched), and no
invite call is made — exactly the state change of a failing resolution,
up to the extra participant-check entry in the call trace. -/
theorem C10_partcheck_error (env : Env) (st : St) (u e : String)
    (h1 : ledger_seen st.ledger u = false)
    (h2 : env.resolve u = Except.ok ())
    (h3 : env.check u = PartRes.failed e) :
    add_one env false st u =
      (0, { st with logs := st.logs ++ [("resolver_fail", u, e)],
                    calls := st.calls ++ [RCall.resolveUser u, RCall.partCheck u] }) ∧
    add_one { env with resolve := fun v => if v = u then Except.error e else env.resolve v }
        false st u =
      (0, { st with logs := st.logs ++ [("resolver_fail", u, e)],
                    calls := st.calls ++ [RCall.resolveUser u] }) := by
  constructor
  · simp [add_one, h1, h2, h3, List.append_assoc]
  · simp [add_one, h1]

/-- C10 (witness). -/
theorem C10_witness :
    ledger_seen stC10.ledger "dave" = false ∧
    envC10.resolve "dave" = Except.ok () ∧
    envC10.check "dave" = PartRes.failed "boom" ∧
    add_one envC10 false stC10 "dave" =
      (0, { stC10 with logs := stC10.logs ++ [("resolver_fail", "dave", "boom")],
                       calls := stC10.calls ++
                         [RCall.resolveUser "dave", RCall.partCheck "dave"] }) :=
  ⟨rfl, rfl, rfl, (C10_partcheck_error envC10 stC10 "dave" "boom" rfl rfl rfl).1⟩

end TgAuto
